import Mathlib

set_option linter.all false

/-!
Shallow embedding of the register-description and debug-access layer
(`riscvDebug.c`) of a configurable RISC-V processor model, together with
proofs about register-table construction, view filtering, integration
register iteration and the accessor callbacks.
-/

namespace RiscvDebug

/-- Modelled from the spec: the enabled-extension bitmask bits
(`riscvVariant.h` is not among the sources; the bits are distinct
letter-indexed powers of two, `A`=bit 0, `D`=bit 3, `F`=bit 5,
`I`=bit 8, `V`=bit 21). -/
def ISA_A : Nat := 1

/-- Extension bit for the double-precision floating-point extension. -/
def ISA_D : Nat := 8

/-- Extension bit for the single-precision floating-point extension. -/
def ISA_F : Nat := 32

/-- Extension bit for the base integer register set. -/
def ISA_I : Nat := 256

/-- Extension bit for the vector extension. -/
def ISA_V : Nat := 2097152

/-- Combined double/float mask, as in the source (`ISA_D|ISA_F`). -/
def ISA_DF : Nat := ISA_D ||| ISA_F

/-- Modelled from the spec: debug-mode capability levels
(`riscvDMMode`, declared in a header not among the sources); ordered,
with absent = 0. -/
def RVDM_NONE : Nat := 0

/-- Debug-mode level required for vector-entry debug registers. -/
def RVDM_VECTOR : Nat := 1

/-- Debug-mode level required for halt-style debug registers. -/
def RVDM_HALT : Nat := 2

/-- Modelled from the spec: the fixed vector-register count
(`VREG_NUM`, declared in a header not among the sources; the
architectural value is 32). -/
def VREG_NUM : Nat := 32

/-- Index of the first FPR in the external (gdb) numbering. -/
def RISCV_FPR0_INDEX : Nat := 33

/-- Index of the first CSR in the external (gdb) numbering. -/
def RISCV_CSR0_INDEX : Nat := 65

/-- Index of the first integration support register. -/
def RISCV_ISR0_INDEX : Nat := 0x1100

/-- Index of the first vector register. -/
def RISCV_V0_INDEX : Nat := 0x2000

/-- Modelled from the spec: the configuration snapshot owned by a
processor instance (`riscvConfigInfo` fields consumed by this unit:
extension mask, debug-mode level, widths). -/
structure riscvConfig where
  arch : Nat
  debug_mode : Nat
  xlen : Nat
  flen : Nat
  xlenModeW : Nat
  VLEN : Nat
deriving DecidableEq

/-- Modelled from the spec: `riscvGetXlenArch` (external, `riscvUtils`)
returns the architectural general-register width. -/
def riscvGetXlenArch (cfg : riscvConfig) : Nat := cfg.xlen

/-- Modelled from the spec: `riscvGetFlenArch` (external, `riscvUtils`)
returns the configured floating-point width, 0 when absent. -/
def riscvGetFlenArch (cfg : riscvConfig) : Nat := cfg.flen

/-- Modelled from the spec: `riscvGetXlenMode` (external, `riscvUtils`)
returns the current execution-mode width. -/
def riscvGetXlenMode (cfg : riscvConfig) : Nat := cfg.xlenModeW

/-- Register group identifiers (`riscvRegGroupId`); the numeric values
mirror the enum order so that `U_CSR + mode` addresses the per-mode CSR
groups exactly as `RV_GROUP(U_CSR+csrDetails.mode)` does. -/
def RV_RG_CORE : Nat := 0

/-- Floating point register group index. -/
def RV_RG_FP : Nat := 1

/-- Vector register group index. -/
def RV_RG_V : Nat := 2

/-- User mode CSR register group index. -/
def RV_RG_U_CSR : Nat := 3

/-- Supervisor mode CSR register group index. -/
def RV_RG_S_CSR : Nat := 4

/-- Reserved CSR register group index. -/
def RV_RG_R_CSR : Nat := 5

/-- Machine mode CSR register group index. -/
def RV_RG_M_CSR : Nat := 6

/-- Integration support register group index. -/
def RV_RG_INTEGRATION : Nat := 7

/-- Number of named groups (`RV_RG_LAST`). -/
def RV_RG_LAST : Nat := 8

/-- The names of the register groups (the `groups` table). -/
def groupNames : List String :=
  ["Core", "Floating_point", "Vector", "User_Control_and_Status",
   "Supervisor_Control_and_Status", "Reserved",
   "Machine_Control_and_Status", "Integration_support"]

/-- Raw storage handles (`vmiReg` values); one constructor per distinct
backing location used by this unit. -/
inductive rawLoc where
  | noRaw : rawLoc
  | gprR : Nat → rawLoc
  | fprR : Nat → rawLoc
  | vregR : Nat → rawLoc
  | eaTag : rawLoc
  | dmR : rawLoc
  | dmStallR : rawLoc
  | commercialR : rawLoc
  | csrR : Nat → rawLoc
deriving DecidableEq, Inhabited

/-- Identifies which of this unit's callback functions a descriptor
carries (`vmiRegReadFn`/`vmiRegWriteFn` function pointers). -/
inductive regCB where
  | cbReadPC : regCB
  | cbWritePC : regCB
  | cbReadCSR : regCB
  | cbWriteCSR : regCB
  | cbWriteDM : regCB
  | cbWriteDMStall : regCB
deriving DecidableEq, Inhabited

/-- Register access policy (`vmiRegAccess`). -/
inductive vmiRegAccess where
  | vmi_RA_NONE : vmiRegAccess
  | vmi_RA_R : vmiRegAccess
  | vmi_RA_W : vmiRegAccess
  | vmi_RA_RW : vmiRegAccess
deriving DecidableEq, Inhabited

/-- Special register usage tag (`vmiRegUsage`). -/
inductive vmiRegUsage where
  | vmi_REG_NONE : vmiRegUsage
  | vmi_REG_PC : vmiRegUsage
  | vmi_REG_SP : vmiRegUsage
  | vmi_REG_LR : vmiRegUsage
deriving DecidableEq, Inhabited

/-- CSR attribute record (`riscvCSRAttrs`, the fields this unit reads). -/
structure csrAttrs where
  name : String
  desc : String
  csrNum : Nat
  noSaveRestore : Bool
  noTraceChange : Bool
deriving DecidableEq, Inhabited

/-- One CSR-enumerator result (`riscvCSRDetails`); `mode` is the CSR's
privilege mode (User/Supervisor/Reserved/Machine). -/
structure riscvCSRDetails where
  attrs : csrAttrs
  mode : Fin 4
  access : vmiRegAccess
  raw : rawLoc
  rdRaw : Bool
  wrRaw : Bool
  extension : Nat
deriving DecidableEq

/-- Register descriptor (`vmiRegInfo`, the fields this unit writes). -/
structure vmiRegInfo where
  name : String
  description : Option String
  group : Nat
  bits : Nat
  gdbIndex : Nat
  access : vmiRegAccess
  raw : rawLoc
  readCB : Option regCB
  writeCB : Option regCB
  usage : vmiRegUsage
  userData : Option csrAttrs
  noSaveRestore : Bool
  noTraceChange : Bool
  extension : Nat
deriving DecidableEq, Inhabited

/-- Details of one integration support register (`isrDetails`). -/
structure isrDetails where
  name : String
  desc : String
  arch : Nat
  index : Nat
  bits : Nat
  raw : rawLoc
  readCB : Option regCB
  writeCB : Option regCB
  access : vmiRegAccess
  noTraceChange : Bool
  DM : Nat
deriving DecidableEq, Inhabited

/-- The static catalog of integration support registers (`isRegs`,
without the terminating null entry, which is represented by the end of
the list). -/
def isRegs : List isrDetails :=
  [{ name := "LRSCAddress", desc := "LR/SC active lock address",
     arch := ISA_A, index := 0, bits := 0, raw := rawLoc.eaTag,
     readCB := none, writeCB := none, access := vmiRegAccess.vmi_RA_RW,
     noTraceChange := false, DM := 0 },
   { name := "DM", desc := "Debug mode active",
     arch := 0, index := 1, bits := 8, raw := rawLoc.dmR,
     readCB := none, writeCB := some regCB.cbWriteDM,
     access := vmiRegAccess.vmi_RA_RW,
     noTraceChange := false, DM := RVDM_VECTOR },
   { name := "DMStall", desc := "Debug mode stalled",
     arch := 0, index := 2, bits := 8, raw := rawLoc.dmStallR,
     readCB := none, writeCB := some regCB.cbWriteDMStall,
     access := vmiRegAccess.vmi_RA_RW,
     noTraceChange := false, DM := RVDM_HALT },
   { name := "commercial", desc := "Commercial feature in use",
     arch := 0, index := 3, bits := 8, raw := rawLoc.commercialR,
     readCB := none, writeCB := none, access := vmiRegAccess.vmi_RA_R,
     noTraceChange := false, DM := 0 }]

/-- The filter applied by `getNextISRDetails`: an entry is skipped when
its required extensions are not all enabled, or the configured
debug-mode level is below the entry's requirement. -/
def isrSkip (cfg : riscvConfig) (e : isrDetails) : Bool :=
  (e.arch &&& cfg.arch != e.arch) || decide (cfg.debug_mode < e.DM)

/-- Fuel-bounded linear search (the fuel is the remaining table
length); the public `searchFrom` below fixes the fuel so that the
search is exhaustive. -/
def searchFromAux (p : Nat → Bool) (len : Nat) : Nat → Nat → Option Nat
  | _, 0 => none
  | i, fuel + 1 =>
    if i < len then
      (if p i then some i else searchFromAux p len (i + 1) fuel)
    else none

/-- Linear search for the first index `j ≥ i` below `len` satisfying
`p`; models pointer advancement over a null-terminated table. -/
def searchFrom (p : Nat → Bool) (len i : Nat) : Option Nat :=
  searchFromAux p len i (len - i)

theorem searchFrom_step (p : Nat → Bool) (len i : Nat) :
    searchFrom p len i =
      if i < len then (if p i then some i else searchFrom p len (i + 1))
      else none := by
  unfold searchFrom
  cases hfi : len - i with
  | zero =>
    have hni : ¬ i < len := by omega
    simp [searchFromAux, hni]
  | succ fuel =>
    have hi : i < len := by omega
    have hf : len - (i + 1) = fuel := by omega
    simp [searchFromAux, hi, hf]

/-- `getNextISRDetails`: given the previous catalog index (`none` to
restart), return the next visible integration register's index for this
variant, or `none`; produces nothing when `normal` is false. -/
def getNextISRDetails (cfg : riscvConfig) (prev : Option Nat) (normal : Bool) :
    Option Nat :=
  if normal then
    searchFrom (fun j => !(isrSkip cfg (isRegs.getD j default))) isRegs.length
      (match prev with
       | none => 0
       | some i => i + 1)
  else
    none

/-- Repeatedly apply a `next` function starting from a previous cursor,
collecting the yielded indices (fuel-bounded). -/
def genChain (next : Option Nat → Option Nat) : Option Nat → Nat → List Nat
  | _, 0 => []
  | prev, fuel + 1 =>
    match next prev with
    | none => []
    | some j => j :: genChain next (some j) fuel

/-- The complete traversal of the integration-register catalog through
`getNextISRDetails`, starting from `none`. -/
def isrTraverse (cfg : riscvConfig) (normal : Bool) : List Nat :=
  genChain (fun prev => getNextISRDetails cfg prev normal) none isRegs.length

/-- `RV_REG_X_RA`: ABI index of the return-address register (modelled
from the spec: link-register usage tagging; `riscvRegisters.h` is not
among the sources). -/
def RV_REG_X_RA : Nat := 1

/-- `RV_REG_X_SP`: ABI index of the stack-pointer register. -/
def RV_REG_X_SP : Nat := 2

/-- `getGPRUsage`: special purpose of the indexed GPR, if any. -/
def getGPRUsage (i : Nat) : vmiRegUsage :=
  if i = RV_REG_X_RA then vmiRegUsage.vmi_REG_LR
  else if i = RV_REG_X_SP then vmiRegUsage.vmi_REG_SP
  else vmiRegUsage.vmi_REG_NONE

/-- Modelled from the spec: `riscvGetXRegName` (external, `riscvUtils`)
returns the display name of a general register. -/
def riscvGetXRegName (i : Nat) : String := "x" ++ toString i

/-- Modelled from the spec: `riscvGetFRegName` (external, `riscvUtils`)
returns the display name of a floating-point register. -/
def riscvGetFRegName (i : Nat) : String := "f" ++ toString i

/-- Modelled from the spec: `riscvGetVRegName` (external, `riscvUtils`)
returns the display name of a vector register. -/
def riscvGetVRegName (i : Nat) : String := "v" ++ toString i

/-- Effective general-register count
(`gprNum = (!normal || (arch&ISA_I)) ? 32 : 16`). -/
def gprNumOf (cfg : riscvConfig) (normal : Bool) : Nat :=
  if !normal || (cfg.arch &&& ISA_I != 0) then 32 else 16

/-- Effective floating-point register count
(`fprNum = (!normal || (arch&ISA_DF)) ? 32 : 0`). -/
def fprNumOf (cfg : riscvConfig) (normal : Bool) : Nat :=
  if !normal || (cfg.arch &&& ISA_DF != 0) then 32 else 0

/-- Effective vector register count
(`vrNum = (normal && (arch&ISA_V)) ? VREG_NUM : 0`). -/
def vrNumOf (cfg : riscvConfig) (normal : Bool) : Nat :=
  if normal && (cfg.arch &&& ISA_V != 0) then VREG_NUM else 0

/-- One general-register descriptor, as filled by the GPR loop of
`getRegisters`. -/
def mkGPREntry (XLEN i : Nat) : vmiRegInfo :=
  { name := riscvGetXRegName i, description := none, group := RV_RG_CORE,
    bits := XLEN, gdbIndex := i,
    access := if i != 0 then vmiRegAccess.vmi_RA_RW else vmiRegAccess.vmi_RA_R,
    raw := rawLoc.gprR i, readCB := none, writeCB := none,
    usage := getGPRUsage i, userData := none,
    noSaveRestore := false, noTraceChange := false, extension := 0 }

/-- The program-counter descriptor, as filled by `getRegisters`. -/
def mkPCEntry (XLEN gprNum : Nat) : vmiRegInfo :=
  { name := "pc", description := none, group := RV_RG_CORE,
    bits := XLEN, gdbIndex := gprNum,
    access := vmiRegAccess.vmi_RA_RW,
    raw := rawLoc.noRaw, readCB := some regCB.cbReadPC,
    writeCB := some regCB.cbWritePC,
    usage := vmiRegUsage.vmi_REG_PC, userData := none,
    noSaveRestore := false, noTraceChange := false, extension := 0 }

/-- One floating-point register descriptor, as filled by the FPR loop
of `getRegisters`. -/
def mkFPREntry (FLEN i : Nat) : vmiRegInfo :=
  { name := riscvGetFRegName i, description := none, group := RV_RG_FP,
    bits := FLEN, gdbIndex := i + RISCV_FPR0_INDEX,
    access := vmiRegAccess.vmi_RA_RW,
    raw := rawLoc.fprR i, readCB := none, writeCB := none,
    usage := vmiRegUsage.vmi_REG_NONE, userData := none,
    noSaveRestore := false, noTraceChange := false, extension := 0 }

/-- One vector register descriptor, as filled by the VR loop of
`getRegisters`. -/
def mkVREntry (VLEN i : Nat) : vmiRegInfo :=
  { name := riscvGetVRegName i, description := none, group := RV_RG_V,
    bits := VLEN, gdbIndex := i + RISCV_V0_INDEX,
    access := vmiRegAccess.vmi_RA_RW,
    raw := rawLoc.vregR i, readCB := none, writeCB := none,
    usage := vmiRegUsage.vmi_REG_NONE, userData := none,
    noSaveRestore := false, noTraceChange := false, extension := 0 }

/-- One CSR descriptor, as filled by the CSR loop of `getRegisters`. -/
def mkCSREntry (XLEN : Nat) (d : riscvCSRDetails) : vmiRegInfo :=
  { name := d.attrs.name, description := some d.attrs.desc,
    group := RV_RG_U_CSR + d.mode.val,
    bits := XLEN, gdbIndex := d.attrs.csrNum + RISCV_CSR0_INDEX,
    access := d.access, raw := d.raw,
    readCB := if d.rdRaw then none else some regCB.cbReadCSR,
    writeCB := if d.wrRaw then none else some regCB.cbWriteCSR,
    usage := vmiRegUsage.vmi_REG_NONE, userData := some d.attrs,
    noSaveRestore := d.attrs.noSaveRestore,
    noTraceChange := d.attrs.noTraceChange, extension := d.extension }

/-- One integration support register descriptor, as filled by the ISR
loop of `getRegisters` (`bits = isrDetails->bits ?: XLEN`). -/
def mkISREntry (XLEN : Nat) (e : isrDetails) : vmiRegInfo :=
  { name := e.name, description := some e.desc,
    group := RV_RG_INTEGRATION,
    bits := if e.bits = 0 then XLEN else e.bits,
    gdbIndex := e.index + RISCV_ISR0_INDEX,
    access := e.access, raw := e.raw,
    readCB := e.readCB, writeCB := e.writeCB,
    usage := vmiRegUsage.vmi_REG_NONE, userData := none,
    noSaveRestore := false, noTraceChange := e.noTraceChange,
    extension := 0 }

/-- The initially resolved floating-point width
(`FLEN = riscvGetFlenArch(riscv) ?: XLEN`). -/
def flen0Of (cfg : riscvConfig) : Nat :=
  if riscvGetFlenArch cfg = 0 then riscvGetXlenArch cfg
  else riscvGetFlenArch cfg

/-- The gdb workaround trigger: building the gdb-compatibility table
with mismatched GPR and FPR widths. -/
def fprMismatch (cfg : riscvConfig) (normal : Bool) : Bool :=
  !normal && (riscvGetXlenArch cfg != flen0Of cfg)

/-- The number of width-mismatch diagnostic warnings emitted by one
table build. -/
def warnOf (cfg : riscvConfig) (normal : Bool) : Nat :=
  if fprMismatch cfg normal then 1 else 0

/-- The floating-point width actually written into the table's FPR
entries: forced to `XLEN` by the gdb workaround, otherwise the resolved
configured width. -/
def flenEff (cfg : riscvConfig) (normal : Bool) : Nat :=
  if fprMismatch cfg normal then riscvGetXlenArch cfg else flen0Of cfg

/-- The table-construction part of `getRegisters`: from the
configuration, the CSR-enumerator output for this mode, and the mode
flag, produce the descriptor table and the number of width-mismatch
warnings emitted while building it.  Population order: general
registers, program counter, floating-point registers, vector
registers, CSRs, integration support registers. -/
def buildRegisters (cfg : riscvConfig) (csrs : List riscvCSRDetails)
    (normal : Bool) : List vmiRegInfo × Nat :=
  let XLEN := riscvGetXlenArch cfg
  (((List.range (gprNumOf cfg normal)).map (mkGPREntry XLEN)) ++
   [mkPCEntry XLEN (gprNumOf cfg normal)] ++
   ((List.range (fprNumOf cfg normal)).map (mkFPREntry (flenEff cfg normal))) ++
   ((List.range (vrNumOf cfg normal)).map (mkVREntry cfg.VLEN)) ++
   (csrs.map (mkCSREntry XLEN)) ++
   ((isrTraverse cfg normal).map
     (fun j => mkISREntry XLEN (isRegs.getD j default))),
   warnOf cfg normal)

/-- The mutable per-instance state this unit touches: configuration
snapshot, cluster-child linkage, the CSR-enumerator output for each
mode, the artifact-access flag, the debug-mode flags, the program
counter, and the two lazily-built descriptor-table cache slots
(`regInfo[0]` = gdb-compatibility table, `regInfo[1]` = normal
table). -/
structure riscvState where
  cfg : riscvConfig
  hasChild : Bool
  csrsNormal : List riscvCSRDetails
  csrsGdb : List riscvCSRDetails
  artifactAccess : Bool
  inDM : Bool
  inDMStall : Bool
  pc : Nat
  regInfoGdb : Option (List vmiRegInfo)
  regInfoNormal : Option (List vmiRegInfo)
deriving DecidableEq

/-- The CSR-enumerator output the instance supplies for a mode. -/
def csrsFor (st : riscvState) (normal : Bool) : List riscvCSRDetails :=
  if normal then st.csrsNormal else st.csrsGdb

/-- The register table `getRegisters(riscv, normal)` returns for a
mode, as a pure value (construction is deterministic, so the cached and
the freshly-built table coincide). -/
def registersFor (st : riscvState) (normal : Bool) : List vmiRegInfo :=
  (buildRegisters st.cfg (csrsFor st normal) normal).1

/-- `getRegisters` with its caching side effect: returns the cached
table when the slot for the mode is filled, otherwise builds the table
and fills the slot. -/
def getRegistersSt (st : riscvState) (normal : Bool) :
    List vmiRegInfo × riscvState :=
  match (if normal then st.regInfoNormal else st.regInfoGdb) with
  | some tbl => (tbl, st)
  | none =>
    let tbl := registersFor st normal
    (tbl,
     if normal then { st with regInfoNormal := some tbl }
     else { st with regInfoGdb := some tbl })

/-- The three visibility views (`vmiRegInfoType`). -/
inductive vmiRegInfoType where
  | VMIRIT_NORMAL : vmiRegInfoType
  | VMIRIT_GPACKET : vmiRegInfoType
  | VMIRIT_PPACKET : vmiRegInfoType
deriving DecidableEq, Inhabited

/-- `isCSRGroup`: does this register group contain CSRs?  (In the
source this is a pointer comparison against the four CSR entries of the
`groups` table.) -/
def isCSRGroup (g : Nat) : Bool :=
  (g == RV_RG_U_CSR) || (g == RV_RG_S_CSR) ||
  (g == RV_RG_R_CSR) || (g == RV_RG_M_CSR)

/-- `isRegVisible`: is the register visible in this view? -/
def isRegVisible (reg : vmiRegInfo) (type : vmiRegInfoType) : Bool :=
  match type with
  | vmiRegInfoType.VMIRIT_NORMAL => true
  | vmiRegInfoType.VMIRIT_GPACKET => !(isCSRGroup reg.group)
  | vmiRegInfoType.VMIRIT_PPACKET => isCSRGroup reg.group

/-- The table `getNextRegister` walks for a given view: the normal view
uses the normal-mode table, the two gdb-packet views use the
gdb-compatibility table (`getRegisters(riscv, type==VMIRIT_NORMAL)`). -/
def tableFor (st : riscvState) (type : vmiRegInfoType) : List vmiRegInfo :=
  registersFor st (type == vmiRegInfoType.VMIRIT_NORMAL)

/-- `getNextRegister` on table positions: `none` restarts (yielding
nothing when the instance has a child), a position advances past
entries invisible in the view; pointer advancement over the
null-terminated table is index search bounded by the table length. -/
def getNextRegister (st : riscvState) (prev : Option Nat)
    (type : vmiRegInfoType) : Option Nat :=
  let tbl := tableFor st type
  let p := fun j => isRegVisible (tbl.getD j default) type
  match prev with
  | none => if st.hasChild then none else searchFrom p tbl.length 0
  | some i => searchFrom p tbl.length (i + 1)

/-- `getNextRegister` with the caching side effect of the internal
`getRegisters` call: with `prev = none` and a child present, no table
is built and the state is untouched. -/
def getNextRegisterSt (st : riscvState) (prev : Option Nat)
    (type : vmiRegInfoType) : Option Nat × riscvState :=
  match prev with
  | none =>
    if st.hasChild then (none, st)
    else
      let r := getRegistersSt st (type == vmiRegInfoType.VMIRIT_NORMAL)
      (searchFrom (fun j => isRegVisible (r.1.getD j default) type)
        r.1.length 0, r.2)
  | some i =>
    (searchFrom
      (fun j => isRegVisible ((tableFor st type).getD j default) type)
      (tableFor st type).length (i + 1), st)

/-- The positions yielded by iterating `getNextRegister` from `none`. -/
def viewSeq (st : riscvState) (type : vmiRegInfoType) : List Nat :=
  genChain (fun prev => getNextRegister st prev type) none
    (tableFor st type).length

/-- The descriptors yielded by iterating `getNextRegister` from
`none` in the given view. -/
def viewDescs (st : riscvState) (type : vmiRegInfoType) : List vmiRegInfo :=
  (viewSeq st type).map (fun j => (tableFor st type).getD j default)

/-- `isGroupSupported`: a group is supported when the unrestricted-view
iteration yields at least one register in it. -/
def isGroupSupported (st : riscvState) (g : Nat) : Bool :=
  (viewDescs st vmiRegInfoType.VMIRIT_NORMAL).any (fun e => e.group == g)

/-- `getNextGroup`: forward iteration over the fixed group table,
skipping unsupported groups. -/
def getNextGroup (st : riscvState) (prev : Option Nat) : Option Nat :=
  searchFrom (fun g => isGroupSupported st g) groupNames.length
    (match prev with
     | none => 0
     | some i => i + 1)

/-- The groups yielded by iterating `getNextGroup` from `none`. -/
def groupTraverse (st : riscvState) : List Nat :=
  genChain (fun prev => getNextGroup st prev) none groupNames.length

/-- `riscvFreeRegInfo`: free both descriptor-table cache slots if they
have been allocated (slot 0 = gdb table, slot 1 = normal table). -/
def riscvFreeRegInfo (st : riscvState) : riscvState :=
  let st1 := if st.regInfoGdb.isSome then { st with regInfoGdb := none } else st
  if st1.regInfoNormal.isSome then { st1 with regInfoNormal := none } else st1

/-- `readPC`: read the program counter, truncated to 32 bits when the
architectural width is 32; always succeeds.  Returns the buffer value
and the success flag. -/
def readPC (st : riscvState) : Nat × Bool :=
  let bits := riscvGetXlenArch st.cfg
  (if bits = 32 then st.pc % 2 ^ 32 else st.pc, true)

/-- `writePC`: install a new program counter sized to the
execution-mode width; always succeeds.  Returns the new state and the
success flag. -/
def writePC (st : riscvState) (buffer : Nat) : riscvState × Bool :=
  let bits := riscvGetXlenMode st.cfg
  ({ st with pc := if bits = 32 then buffer % 2 ^ 32 else buffer }, true)

/-- `writeDM`: a single-byte write whose low bit sets or clears the
debug-mode flag (`riscvSetDM(riscv, DM&1)`); always succeeds. -/
def writeDM (st : riscvState) (buffer : Nat) : riscvState × Bool :=
  let DM := buffer % 2 ^ 8
  ({ st with inDM := (DM &&& 1) == 1 }, true)

/-- `writeDMStall`: a single-byte write whose low bit sets or clears
the debug-stall flag (`riscvSetDMStall(riscv, DMStall&1)`); always
succeeds. -/
def writeDMStall (st : riscvState) (buffer : Nat) : riscvState × Bool :=
  let DMStall := buffer % 2 ^ 8
  ({ st with inDMStall := (DMStall &&& 1) == 1 }, true)

/-- `readCSR`: delegate to the external CSR-subsystem read entry point
(passed here as `delegate`, since `riscvReadCSR` is an external
collaborator), marking the access as an artifact access for the
duration of the call and restoring the previous flag value
afterwards. -/
def readCSR (delegate : riscvState → Bool × riscvState)
    (st : riscvState) : Bool × riscvState :=
  let old := st.artifactAccess
  let r := delegate { st with artifactAccess := true }
  (r.1, { r.2 with artifactAccess := old })

/-- `writeCSR`: delegate to the external CSR-subsystem write entry
point, with the same artifact-access save/restore discipline as
`readCSR`. -/
def writeCSR (delegate : riscvState → Bool × riscvState)
    (st : riscvState) : Bool × riscvState :=
  let old := st.artifactAccess
  let r := delegate { st with artifactAccess := true }
  (r.1, { r.2 with artifactAccess := old })

/-- `n`-fold re-entrant nesting of `readCSR` around an innermost
delegate: depth 0 is a plain delegated call, depth `n+1` wraps a
depth-`n` call as its delegate. -/
def nestedReadCSR (n : Nat) (delegate : riscvState → Bool × riscvState) :
    riscvState → Bool × riscvState :=
  match n with
  | 0 => readCSR delegate
  | n + 1 => readCSR (nestedReadCSR n delegate)

/-- The table position at which a traversal step starting from `prev`
begins its search: the head for `none`, the successor position
otherwise. -/
def startOf : Option Nat → Nat
  | none => 0
  | some i => i + 1

theorem searchFrom_eq_none_iff (p : Nat → Bool) (len i : Nat) :
    searchFrom p len i = none ↔ ∀ j, i ≤ j → j < len → p j = false := by
  rw [searchFrom_step]
  split
  · next h =>
    cases hpi : p i with
    | true =>
      rw [if_pos rfl]
      constructor
      · intro hc; exact absurd hc (by simp)
      · intro hall; exact absurd (hall i le_rfl h) (by simp [hpi])
    | false =>
      rw [if_neg (by simp)]
      rw [searchFrom_eq_none_iff p len (i + 1)]
      constructor
      · intro hall j hij hjlen
        rcases Nat.eq_or_lt_of_le hij with rfl | hlt
        · exact hpi
        · exact hall j hlt hjlen
      · intro hall j hij hjlen
        exact hall j (Nat.le_of_succ_le hij) hjlen
  · next h =>
    constructor
    · intro _ j hij hjlen
      exact absurd hjlen (by omega)
    · intro _; rfl
termination_by len - i

theorem searchFrom_eq_some (p : Nat → Bool) (len i j : Nat)
    (h : searchFrom p len i = some j) :
    i ≤ j ∧ j < len ∧ p j = true ∧ ∀ k, i ≤ k → k < j → p k = false := by
  rw [searchFrom_step] at h
  split at h
  · next hi =>
    cases hpi : p i with
    | true =>
      rw [if_pos hpi] at h
      cases h
      exact ⟨le_rfl, hi, hpi, fun k hk1 hk2 => absurd hk2 (by omega)⟩
    | false =>
      rw [if_neg (by simp [hpi])] at h
      obtain ⟨h1, h2, h3, h4⟩ := searchFrom_eq_some p len (i + 1) j h
      refine ⟨by omega, h2, h3, fun k hk1 hk2 => ?_⟩
      rcases Nat.eq_or_lt_of_le hk1 with rfl | hlt
      · exact hpi
      · exact h4 k hlt hk2
  · exact absurd h (by simp)
termination_by len - i

theorem genChain_eq_filter (p : Nat → Bool) (len : Nat)
    (next : Option Nat → Option Nat)
    (hnext : ∀ prev, next prev = searchFrom p len (startOf prev)) :
    ∀ fuel prev, len ≤ startOf prev + fuel →
      genChain next prev fuel =
        (List.range' (startOf prev) (len - startOf prev)).filter p := by
  intro fuel
  induction fuel with
  | zero =>
    intro prev hlen
    have : len - startOf prev = 0 := by omega
    simp [genChain, this]
  | succ fuel ih =>
    intro prev hlen
    show (match next prev with
          | none => []
          | some j => j :: genChain next (some j) fuel) = _
    rw [hnext]
    cases hsearch : searchFrom p len (startOf prev) with
    | none =>
      have hnil : (List.range' (startOf prev) (len - startOf prev)).filter p
          = [] := by
        rw [List.filter_eq_nil_iff]
        intro a ha
        rw [List.mem_range'_1] at ha
        simp [(searchFrom_eq_none_iff p len (startOf prev)).mp hsearch a ha.1
          (by omega)]
      show ([] : List Nat) = _
      rw [hnil]
    | some j =>
      obtain ⟨h1, h2, h3, h4⟩ := searchFrom_eq_some p len (startOf prev) j hsearch
      have hstep := ih (some j) (by simp only [startOf]; omega)
      simp only [startOf] at hstep
      have happ := List.range'_append (startOf prev) (j - startOf prev) (len - j) 1
      simp only [one_mul] at happ
      rw [show startOf prev + (j - startOf prev) = j from by omega] at happ
      rw [show len - j + (j - startOf prev) = len - startOf prev from by omega]
        at happ
      show j :: genChain next (some j) fuel = _
      rw [← happ, List.filter_append]
      have hnil : (List.range' (startOf prev) (j - startOf prev)).filter p = [] := by
        rw [List.filter_eq_nil_iff]
        intro a ha
        rw [List.mem_range'_1] at ha
        have := h4 a ha.1 (by omega)
        simp [this]
      rw [hnil, List.nil_append]
      rw [show len - j = (len - (j + 1)) + 1 from by omega, List.range'_succ]
      rw [List.filter_cons_of_pos h3, hstep]

theorem searchFrom_all_false (p : Nat → Bool) (len i : Nat)
    (h : ∀ j, j < len → p j = false) : searchFrom p len i = none := by
  rw [searchFrom_eq_none_iff]
  exact fun j _ hj => h j hj

/-- Transport of an index-level filter over `List.range` to a
value-level filter of the underlying list. -/
theorem filter_range_map_getD {α : Type} (l : List α) (d : α) (q : α → Bool) :
    ((List.range l.length).filter (fun j => q (l.getD j d))).map
      (fun j => l.getD j d) = l.filter q := by
  induction l with
  | nil => simp
  | cons a l ih =>
    rw [List.length_cons, List.range_succ_eq_map]
    have hcomp :
        ((fun j => q ((a :: l).getD j d)) ∘ Nat.succ) =
          fun j => q (l.getD j d) := by
      funext j
      simp [List.getD_cons_succ]
    cases hqa : q a with
    | true =>
      rw [List.filter_cons_of_pos (by simpa using hqa)]
      rw [List.filter_map, hcomp]
      rw [List.map_cons, List.map_map]
      have hmap :
          ((fun j => (a :: l).getD j d) ∘ Nat.succ) =
            fun j => l.getD j d := by
        funext j
        simp [List.getD_cons_succ]
      rw [hmap, ih, List.getD_cons_zero, List.filter_cons_of_pos hqa]
    | false =>
      rw [List.filter_cons_of_neg (by simp [hqa])]
      rw [List.filter_map, hcomp, List.map_map]
      have hmap :
          ((fun j => (a :: l).getD j d) ∘ Nat.succ) =
            fun j => l.getD j d := by
        funext j
        simp [List.getD_cons_succ]
      rw [hmap, ih, List.filter_cons_of_neg (by simp [hqa])]

theorem isrTraverse_false (cfg : riscvConfig) : isrTraverse cfg false = [] := rfl

theorem isrTraverse_true (cfg : riscvConfig) :
    isrTraverse cfg true = (List.range isRegs.length).filter
      (fun j => !(isrSkip cfg (isRegs.getD j default))) := by
  have h := genChain_eq_filter
    (fun j => !(isrSkip cfg (isRegs.getD j default))) isRegs.length
    (fun prev => getNextISRDetails cfg prev true)
    (by intro prev; cases prev <;> rfl)
    isRegs.length none (by simp [startOf])
  simpa [isrTraverse, startOf, List.range_eq_range'] using h

theorem viewSeq_eq (st : riscvState) (type : vmiRegInfoType)
    (hchild : st.hasChild = false) :
    viewSeq st type = (List.range (tableFor st type).length).filter
      (fun j => isRegVisible ((tableFor st type).getD j default) type) := by
  have h := genChain_eq_filter
    (fun j => isRegVisible ((tableFor st type).getD j default) type)
    (tableFor st type).length
    (fun prev => getNextRegister st prev type)
    (by
      intro prev
      cases prev with
      | none => simp [getNextRegister, hchild, startOf]
      | some i => rfl)
    (tableFor st type).length none (by simp [startOf])
  simpa [viewSeq, startOf, List.range_eq_range'] using h

theorem viewDescs_eq (st : riscvState) (type : vmiRegInfoType)
    (hchild : st.hasChild = false) :
    viewDescs st type = (tableFor st type).filter
      (fun e => isRegVisible e type) := by
  rw [viewDescs, viewSeq_eq st type hchild]
  exact filter_range_map_getD (tableFor st type) default
    (fun e => isRegVisible e type)

/-- Classification of a descriptor into the register kinds the external
index bands are assigned by. -/
inductive regKind where
  | kGPR : regKind
  | kPC : regKind
  | kFPR : regKind
  | kCSR : regKind
  | kISR : regKind
  | kVEC : regKind
deriving DecidableEq, Inhabited

/-- The kind of a descriptor, read off its group and usage tag. -/
def kindOf (e : vmiRegInfo) : regKind :=
  if e.group = RV_RG_CORE then
    (if e.usage = vmiRegUsage.vmi_REG_PC then regKind.kPC else regKind.kGPR)
  else if e.group = RV_RG_FP then regKind.kFPR
  else if e.group = RV_RG_V then regKind.kVEC
  else if e.group = RV_RG_INTEGRATION then regKind.kISR
  else regKind.kCSR

/-- Number of descriptors of a given kind in a table. -/
def countKind (tbl : List vmiRegInfo) (k : regKind) : Nat :=
  (tbl.filter (fun e => kindOf e == k)).length

theorem getGPRUsage_ne_pc (i : Nat) :
    getGPRUsage i ≠ vmiRegUsage.vmi_REG_PC := by
  unfold getGPRUsage
  split_ifs <;> simp

theorem kindOf_mkGPR (X i : Nat) : kindOf (mkGPREntry X i) = regKind.kGPR := by
  simp [kindOf, mkGPREntry, getGPRUsage_ne_pc i]

theorem kindOf_mkPC (X g : Nat) : kindOf (mkPCEntry X g) = regKind.kPC := rfl

theorem kindOf_mkFPR (F i : Nat) : kindOf (mkFPREntry F i) = regKind.kFPR := rfl

theorem kindOf_mkVR (V i : Nat) : kindOf (mkVREntry V i) = regKind.kVEC := rfl

theorem kindOf_mkCSR (X : Nat) (d : riscvCSRDetails) :
    kindOf (mkCSREntry X d) = regKind.kCSR := by
  have h := d.mode.isLt
  simp only [kindOf, mkCSREntry, RV_RG_U_CSR, RV_RG_CORE, RV_RG_FP, RV_RG_V,
    RV_RG_INTEGRATION]
  split_ifs <;> first | rfl | (exfalso; omega)

theorem kindOf_mkISR (X : Nat) (e : isrDetails) :
    kindOf (mkISREntry X e) = regKind.kISR := rfl

theorem filter_kind_map {β : Type} (f : β → vmiRegInfo) (l : List β)
    (k0 k : regKind) (h : ∀ b, kindOf (f b) = k0) :
    ((l.map f).filter (fun e => kindOf e == k)).length =
      if k0 = k then l.length else 0 := by
  have hc : ((fun e => kindOf e == k) ∘ f) = fun _ => k0 == k := by
    funext b
    simp [h b]
  rw [List.filter_map, hc]
  by_cases hk : k0 = k
  · simp [hk]
  · simp [hk]

theorem countKind_build (cfg : riscvConfig) (csrs : List riscvCSRDetails)
    (normal : Bool) (k : regKind) :
    countKind (buildRegisters cfg csrs normal).1 k =
      (if regKind.kGPR = k then gprNumOf cfg normal else 0) +
      (if regKind.kPC = k then 1 else 0) +
      (if regKind.kFPR = k then fprNumOf cfg normal else 0) +
      (if regKind.kVEC = k then vrNumOf cfg normal else 0) +
      (if regKind.kCSR = k then csrs.length else 0) +
      (if regKind.kISR = k then (isrTraverse cfg normal).length else 0) := by
  unfold countKind buildRegisters
  simp only [List.filter_append, List.length_append]
  rw [filter_kind_map (mkGPREntry (riscvGetXlenArch cfg)) _ regKind.kGPR k
    (fun b => kindOf_mkGPR _ b)]
  rw [filter_kind_map (mkFPREntry _) _ regKind.kFPR k
    (fun b => kindOf_mkFPR _ b)]
  rw [filter_kind_map (mkVREntry _) _ regKind.kVEC k
    (fun b => kindOf_mkVR _ b)]
  rw [filter_kind_map (mkCSREntry _) _ regKind.kCSR k
    (fun b => kindOf_mkCSR _ b)]
  rw [filter_kind_map (fun j => mkISREntry _ (isRegs.getD j default)) _
    regKind.kISR k (fun b => kindOf_mkISR _ _)]
  rw [List.filter_singleton]
  simp only [List.length_range, kindOf_mkPC]
  by_cases hk : regKind.kPC = k
  · simp only [← hk]
    simp
  · have : (kindOf (mkPCEntry (riscvGetXlenArch cfg) (gprNumOf cfg normal)) ==
        k) = false := by
      simp [kindOf_mkPC, hk]
    have hb : (regKind.kPC == k) = false := by simp [hk]
    simp [this, hb, hk]

/-- A sample width-32 configuration: base-integer extension present, no
floating-point extension, no vector extension, no debug mode. -/
def cfg32I : riscvConfig :=
  { arch := ISA_I, debug_mode := 0, xlen := 32, flen := 0,
    xlenModeW := 32, VLEN := 128 }

/-- A sample hart (no child) with the `cfg32I` configuration and an
empty CSR enumeration. -/
def stSample : riscvState :=
  { cfg := cfg32I, hasChild := false, csrsNormal := [], csrsGdb := [],
    artifactAccess := false, inDM := false, inDMStall := false, pc := 0,
    regInfoGdb := none, regInfoNormal := none }

/-- C7: the integration-register traversal yields a catalog index iff
the entry's required-extension bits are all present in the enabled
extensions and the configured debug-mode level is at least the entry's
minimum; under the restricted (gdb-compatibility) mode it yields no
entries at all. -/
theorem claim7_isr_traversal (cfg : riscvConfig) :
    isrTraverse cfg false = [] ∧
    ∀ j, j ∈ isrTraverse cfg true ↔
      j < isRegs.length ∧
      (isRegs.getD j default).arch &&& cfg.arch = (isRegs.getD j default).arch ∧
      ¬ cfg.debug_mode < (isRegs.getD j default).DM := by
  refine ⟨isrTraverse_false cfg, fun j => ?_⟩
  rw [isrTraverse_true, List.mem_filter, List.mem_range]
  simp [isrSkip, and_assoc]

/-- C4: the CSR read/write callbacks set the artifact-access flag for
the duration of the delegated call (the delegate runs on a state whose
flag is `true`), restore the exact prior flag value when they return on
both the success and the failure path, and do so at every re-entrant
nesting depth. -/
theorem claim4_artifact_access (rd wr : riscvState → Bool × riscvState)
    (st : riscvState) (n : Nat) :
    (readCSR rd st).2.artifactAccess = st.artifactAccess ∧
    (writeCSR wr st).2.artifactAccess = st.artifactAccess ∧
    (readCSR rd st).1 = (rd { st with artifactAccess := true }).1 ∧
    (writeCSR wr st).1 = (wr { st with artifactAccess := true }).1 ∧
    (readCSR rd st).2 = { (rd { st with artifactAccess := true }).2 with
      artifactAccess := st.artifactAccess } ∧
    (nestedReadCSR n rd st).2.artifactAccess = st.artifactAccess := by
  refine ⟨rfl, rfl, rfl, rfl, rfl, ?_⟩
  cases n with
  | zero => rfl
  | succ n => rfl

/-- C10: the program-counter read and write callbacks and the
debug-mode and debug-stall write callbacks always report success, for
every state and buffer value; the CSR callbacks report exactly the
status of the delegated CSR subsystem call, which is the only way a
failed access can be surfaced. -/
theorem claim10_callback_status (st : riscvState) (buffer : Nat)
    (rd wr : riscvState → Bool × riscvState) :
    (readPC st).2 = true ∧
    (writePC st buffer).2 = true ∧
    (writeDM st buffer).2 = true ∧
    (writeDMStall st buffer).2 = true ∧
    (readCSR rd st).1 = (rd { st with artifactAccess := true }).1 ∧
    (writeCSR wr st).1 = (wr { st with artifactAccess := true }).1 :=
  ⟨rfl, rfl, rfl, rfl, rfl, rfl⟩

/-- C8: `riscvFreeRegInfo` empties both cache slots, is idempotent, and
leaves an instance whose tables were never built unchanged. -/
theorem claim8_free_idempotent (st : riscvState) :
    riscvFreeRegInfo (riscvFreeRegInfo st) = riscvFreeRegInfo st ∧
    (riscvFreeRegInfo st).regInfoGdb = none ∧
    (riscvFreeRegInfo st).regInfoNormal = none ∧
    (st.regInfoGdb = none → st.regInfoNormal = none →
      riscvFreeRegInfo st = st) := by
  cases hg : st.regInfoGdb <;> cases hn : st.regInfoNormal <;>
    simp [riscvFreeRegInfo, hg, hn]

/-- C8 witness: on a concrete instance whose tables were never built,
freeing is the identity and idempotent. -/
theorem claim8_witness :
    riscvFreeRegInfo (riscvFreeRegInfo stSample) = riscvFreeRegInfo stSample ∧
    (riscvFreeRegInfo stSample).regInfoGdb = none ∧
    (riscvFreeRegInfo stSample).regInfoNormal = none ∧
    riscvFreeRegInfo stSample = stSample :=
  ⟨(claim8_free_idempotent stSample).1,
   (claim8_free_idempotent stSample).2.1,
   (claim8_free_idempotent stSample).2.2.1,
   (claim8_free_idempotent stSample).2.2.2 rfl rfl⟩

/-- C1 (amended): the register counts the table builder realizes are:
32 general registers unless the full table is requested and the base
integer extension is absent (then 16; the gdb-compatibility table
always has 32); 32 floating-point registers unless the full table is
requested and the double/float extension is absent (then 0; the
gdb-compatibility table always has 32); `VREG_NUM` vector registers
exactly when the full table is requested and the vector extension is
present; and exactly one program counter. -/
theorem claim1_register_counts (cfg : riscvConfig)
    (csrs : List riscvCSRDetails) (normal : Bool) :
    countKind (buildRegisters cfg csrs normal).1 regKind.kGPR
        = (if !normal || (cfg.arch &&& ISA_I != 0) then 32 else 16) ∧
    countKind (buildRegisters cfg csrs normal).1 regKind.kFPR
        = (if !normal || (cfg.arch &&& ISA_DF != 0) then 32 else 0) ∧
    countKind (buildRegisters cfg csrs normal).1 regKind.kVEC
        = (if normal && (cfg.arch &&& ISA_V != 0) then VREG_NUM else 0) ∧
    countKind (buildRegisters cfg csrs normal).1 regKind.kPC = 1 := by
  refine ⟨?_, ?_, ?_, ?_⟩ <;>
    simp [countKind_build, gprNumOf, fprNumOf, vrNumOf]

/-- C1 counterexample: for the width-32 configuration with base-integer
present and no floating-point extension, the restricted
(gdb-compatibility) table does NOT contain 16 general and 0
floating-point registers — it contains 32 of each. -/
theorem claim1_counterexample :
    ¬ (countKind (buildRegisters cfg32I [] false).1 regKind.kGPR = 16 ∧
       countKind (buildRegisters cfg32I [] false).1 regKind.kFPR = 0) := by
  intro h
  have h1 : countKind (buildRegisters cfg32I [] false).1 regKind.kGPR = 32 := by
    rw [countKind_build]
    rfl
  have h2 := h.1
  omega

theorem genChain_none {next : Option Nat → Option Nat} {prev : Option Nat}
    (h : next prev = none) (fuel : Nat) : genChain next prev fuel = [] := by
  cases fuel with
  | zero => rfl
  | succ fuel => simp [genChain, h]

theorem mem_isrTraverse_lt (cfg : riscvConfig) (normal : Bool) (j : Nat)
    (h : j ∈ isrTraverse cfg normal) : j < isRegs.length := by
  cases normal with
  | false => rw [isrTraverse_false] at h; cases h
  | true =>
    rw [isrTraverse_true, List.mem_filter, List.mem_range] at h
    exact h.1

theorem gprNumOf_le (cfg : riscvConfig) (normal : Bool) :
    gprNumOf cfg normal ≤ 32 := by
  unfold gprNumOf
  split <;> omega

theorem fprNumOf_le (cfg : riscvConfig) (normal : Bool) :
    fprNumOf cfg normal ≤ 32 := by
  unfold fprNumOf
  split <;> omega

theorem vrNumOf_le (cfg : riscvConfig) (normal : Bool) :
    vrNumOf cfg normal ≤ VREG_NUM := by
  unfold vrNumOf
  split <;> simp [VREG_NUM]

/-- Every table entry arises from exactly one of the six populate
steps of `getRegisters`. -/
theorem mem_build_cases (cfg : riscvConfig) (csrs : List riscvCSRDetails)
    (normal : Bool) (e : vmiRegInfo)
    (he : e ∈ (buildRegisters cfg csrs normal).1) :
    (∃ i, i < gprNumOf cfg normal ∧
      e = mkGPREntry (riscvGetXlenArch cfg) i) ∨
    e = mkPCEntry (riscvGetXlenArch cfg) (gprNumOf cfg normal) ∨
    (∃ i, i < fprNumOf cfg normal ∧ e = mkFPREntry (flenEff cfg normal) i) ∨
    (∃ i, i < vrNumOf cfg normal ∧ e = mkVREntry cfg.VLEN i) ∨
    (∃ d, d ∈ csrs ∧ e = mkCSREntry (riscvGetXlenArch cfg) d) ∨
    (∃ j, j ∈ isrTraverse cfg normal ∧
      e = mkISREntry (riscvGetXlenArch cfg) (isRegs.getD j default)) := by
  simp only [buildRegisters, List.mem_append, List.mem_map,
    List.mem_singleton, List.mem_range] at he
  rcases he with ((((he | he) | he) | he) | he) | he
  · left
    obtain ⟨i, hi, rfl⟩ := he
    exact ⟨i, hi, rfl⟩
  · right; left
    exact he
  · right; right; left
    obtain ⟨i, hi, rfl⟩ := he
    exact ⟨i, hi, rfl⟩
  · right; right; right; left
    obtain ⟨i, hi, rfl⟩ := he
    exact ⟨i, hi, rfl⟩
  · right; right; right; right; left
    obtain ⟨d, hd, rfl⟩ := he
    exact ⟨d, hd, rfl⟩
  · right; right; right; right; right
    obtain ⟨j, hj, rfl⟩ := he
    exact ⟨j, hj, rfl⟩

/-- C3: whenever the configured floating-point width is set and differs
from the general-register width, building the gdb-compatibility
(restricted) table emits the diagnostic warning exactly once and every
floating-point entry of that table reports the general-register width,
while the full table is built without a warning and its floating-point
entries retain the true configured width. -/
theorem claim3_fpr_width_workaround (cfg : riscvConfig)
    (csrsR csrsF : List riscvCSRDetails)
    (h0 : riscvGetFlenArch cfg ≠ 0)
    (hne : riscvGetFlenArch cfg ≠ riscvGetXlenArch cfg) :
    (buildRegisters cfg csrsR false).2 = 1 ∧
    (∀ e ∈ (buildRegisters cfg csrsR false).1, e.group = RV_RG_FP →
      e.bits = riscvGetXlenArch cfg) ∧
    (buildRegisters cfg csrsF true).2 = 0 ∧
    (∀ e ∈ (buildRegisters cfg csrsF true).1, e.group = RV_RG_FP →
      e.bits = riscvGetFlenArch cfg) := by
  have hflen0 : flen0Of cfg = riscvGetFlenArch cfg := by
    simp [flen0Of, h0]
  have hmm : fprMismatch cfg false = true := by
    simp [fprMismatch, hflen0]
    exact fun hx => absurd hx.symm hne
  have hmf : fprMismatch cfg true = false := by
    simp [fprMismatch]
  refine ⟨?_, ?_, ?_, ?_⟩
  · simp [buildRegisters, warnOf, hmm]
  · intro e he hgroup
    rcases mem_build_cases cfg csrsR false e he with
      ⟨i, _, rfl⟩ | rfl | ⟨i, _, rfl⟩ | ⟨i, _, rfl⟩ | ⟨d, _, rfl⟩ | ⟨j, _, rfl⟩
    · simp [mkGPREntry, RV_RG_CORE, RV_RG_FP] at hgroup
    · simp [mkPCEntry, RV_RG_CORE, RV_RG_FP] at hgroup
    · simp [mkFPREntry, flenEff, hmm]
    · simp [mkVREntry, RV_RG_V, RV_RG_FP] at hgroup
    · have := d.mode.isLt
      simp [mkCSREntry, RV_RG_U_CSR, RV_RG_FP] at hgroup
      omega
    · simp [mkISREntry, RV_RG_INTEGRATION, RV_RG_FP] at hgroup
  · simp [buildRegisters, warnOf, hmf]
  · intro e he hgroup
    rcases mem_build_cases cfg csrsF true e he with
      ⟨i, _, rfl⟩ | rfl | ⟨i, _, rfl⟩ | ⟨i, _, rfl⟩ | ⟨d, _, rfl⟩ | ⟨j, _, rfl⟩
    · simp [mkGPREntry, RV_RG_CORE, RV_RG_FP] at hgroup
    · simp [mkPCEntry, RV_RG_CORE, RV_RG_FP] at hgroup
    · simp [mkFPREntry, flenEff, hmf, hflen0]
    · simp [mkVREntry, RV_RG_V, RV_RG_FP] at hgroup
    · have := d.mode.isLt
      simp [mkCSREntry, RV_RG_U_CSR, RV_RG_FP] at hgroup
      omega
    · simp [mkISREntry, RV_RG_INTEGRATION, RV_RG_FP] at hgroup

/-- A sample configuration with 32-bit general registers and 64-bit
floating-point registers (double extension present). -/
def cfg32D64 : riscvConfig :=
  { arch := ISA_I ||| ISA_D ||| ISA_F, debug_mode := 0, xlen := 32,
    flen := 64, xlenModeW := 32, VLEN := 128 }

/-- C3 witness: for the concrete mismatched-width configuration, the
restricted build warns once and its first floating-point entry reports
the 32-bit general-register width, while the full build does not warn
and its first floating-point entry keeps the 64-bit configured
width. -/
theorem claim3_witness :
    (buildRegisters cfg32D64 [] false).2 = 1 ∧
    (mkFPREntry (flenEff cfg32D64 false) 0).bits =
      riscvGetXlenArch cfg32D64 ∧
    (buildRegisters cfg32D64 [] true).2 = 0 ∧
    (mkFPREntry (flenEff cfg32D64 true) 0).bits =
      riscvGetFlenArch cfg32D64 := by
  have h := claim3_fpr_width_workaround cfg32D64 [] [] (by decide) (by decide)
  refine ⟨h.1, ?_, h.2.2.1, ?_⟩
  · exact h.2.1 (mkFPREntry (flenEff cfg32D64 false) 0) (by decide) (by decide)
  · exact h.2.2.2 (mkFPREntry (flenEff cfg32D64 true) 0) (by decide) (by decide)

/-- C6: in every built table, a general-register descriptor (core
group, not the program counter) is read-only exactly when it describes
register 0 and read-write otherwise. -/
theorem claim6_gpr_access (cfg : riscvConfig) (csrs : List riscvCSRDetails)
    (normal : Bool) (e : vmiRegInfo)
    (he : e ∈ (buildRegisters cfg csrs normal).1)
    (hk : kindOf e = regKind.kGPR) :
    (e.gdbIndex = 0 → e.access = vmiRegAccess.vmi_RA_R) ∧
    (e.gdbIndex ≠ 0 → e.access = vmiRegAccess.vmi_RA_RW) := by
  rcases mem_build_cases cfg csrs normal e he with
    ⟨i, _, rfl⟩ | rfl | ⟨i, _, rfl⟩ | ⟨i, _, rfl⟩ | ⟨d, _, rfl⟩ | ⟨j, _, rfl⟩
  · constructor
    · intro hzero
      have hi : i = 0 := by simpa [mkGPREntry] using hzero
      subst hi
      rfl
    · intro hnz
      have hi : i ≠ 0 := by simpa [mkGPREntry] using hnz
      simp [mkGPREntry, hi]
  · rw [kindOf_mkPC] at hk; cases hk
  · rw [kindOf_mkFPR] at hk; cases hk
  · rw [kindOf_mkVR] at hk; cases hk
  · rw [kindOf_mkCSR] at hk; cases hk
  · rw [kindOf_mkISR] at hk; cases hk

/-- C6 witness: in the concrete full table for `cfg32I`, the
general-register descriptor for index 0 is read-only and the one for
index 5 is read-write. -/
theorem claim6_witness :
    (mkGPREntry 32 0).access = vmiRegAccess.vmi_RA_R ∧
    (mkGPREntry 32 5).access = vmiRegAccess.vmi_RA_RW :=
  ⟨(claim6_gpr_access cfg32I [] true (mkGPREntry 32 0) (by decide)
      (by decide)).1 (by decide),
   (claim6_gpr_access cfg32I [] true (mkGPREntry 32 5) (by decide)
      (by decide)).2 (by decide)⟩

/-- The external-index band a descriptor of each kind must occupy:
general registers below the general-register count (itself at most 32),
the program counter exactly at the slot after the last general
register, floating-point registers in `[33,65)`, CSRs in
`[65,65+4096)`, integration registers in `[0x1100,0x1100+4)` and
vector registers in `[0x2000,0x2000+VREG_NUM)`. -/
def gdbBandOK (gprNum : Nat) (e : vmiRegInfo) : Prop :=
  match kindOf e with
  | regKind.kGPR => e.gdbIndex < gprNum ∧ gprNum ≤ 32
  | regKind.kPC => e.gdbIndex = gprNum
  | regKind.kFPR =>
    RISCV_FPR0_INDEX ≤ e.gdbIndex ∧ e.gdbIndex < RISCV_CSR0_INDEX
  | regKind.kCSR =>
    RISCV_CSR0_INDEX ≤ e.gdbIndex ∧ e.gdbIndex < RISCV_CSR0_INDEX + 4096
  | regKind.kISR =>
    RISCV_ISR0_INDEX ≤ e.gdbIndex ∧ e.gdbIndex < RISCV_ISR0_INDEX + 4
  | regKind.kVEC =>
    RISCV_V0_INDEX ≤ e.gdbIndex ∧ e.gdbIndex < RISCV_V0_INDEX + VREG_NUM

theorem isr_index_lt (j : Nat) (hj : j < isRegs.length) :
    (isRegs.getD j default).index < 4 := by
  have h4 : j < 4 := hj
  interval_cases j <;> decide

/-- C5: under the external contract that CSR protocol numbers are
12-bit, every descriptor's external index lies in its kind's band, and
descriptors of different kinds never collide on their external
index. -/
theorem claim5_index_bands (cfg : riscvConfig) (csrs : List riscvCSRDetails)
    (normal : Bool) (hcsr : ∀ d ∈ csrs, d.attrs.csrNum < 4096) :
    (∀ e ∈ (buildRegisters cfg csrs normal).1,
      gdbBandOK (gprNumOf cfg normal) e) ∧
    (∀ e1 ∈ (buildRegisters cfg csrs normal).1,
      ∀ e2 ∈ (buildRegisters cfg csrs normal).1,
        kindOf e1 ≠ kindOf e2 → e1.gdbIndex ≠ e2.gdbIndex) := by
  have hband : ∀ e ∈ (buildRegisters cfg csrs normal).1,
      gdbBandOK (gprNumOf cfg normal) e := by
    intro e he
    rcases mem_build_cases cfg csrs normal e he with
      ⟨i, hi, rfl⟩ | rfl | ⟨i, hi, rfl⟩ | ⟨i, hi, rfl⟩ | ⟨d, hd, rfl⟩ |
      ⟨j, hj, rfl⟩
    · unfold gdbBandOK
      rw [kindOf_mkGPR]
      exact ⟨hi, gprNumOf_le cfg normal⟩
    · unfold gdbBandOK
      rw [kindOf_mkPC]
      rfl
    · have := fprNumOf_le cfg normal
      unfold gdbBandOK
      rw [kindOf_mkFPR]
      show RISCV_FPR0_INDEX ≤ i + RISCV_FPR0_INDEX ∧
        i + RISCV_FPR0_INDEX < RISCV_CSR0_INDEX
      simp only [RISCV_FPR0_INDEX, RISCV_CSR0_INDEX]
      omega
    · have := vrNumOf_le cfg normal
      unfold gdbBandOK
      rw [kindOf_mkVR]
      show RISCV_V0_INDEX ≤ i + RISCV_V0_INDEX ∧
        i + RISCV_V0_INDEX < RISCV_V0_INDEX + VREG_NUM
      simp only [RISCV_V0_INDEX, VREG_NUM]
      simp only [VREG_NUM] at this
      omega
    · have := hcsr d hd
      unfold gdbBandOK
      rw [kindOf_mkCSR]
      show RISCV_CSR0_INDEX ≤ d.attrs.csrNum + RISCV_CSR0_INDEX ∧
        d.attrs.csrNum + RISCV_CSR0_INDEX < RISCV_CSR0_INDEX + 4096
      simp only [RISCV_CSR0_INDEX]
      omega
    · have := isr_index_lt j (mem_isrTraverse_lt cfg normal j hj)
      unfold gdbBandOK
      rw [kindOf_mkISR]
      show RISCV_ISR0_INDEX ≤ (isRegs.getD j default).index + RISCV_ISR0_INDEX ∧
        (isRegs.getD j default).index + RISCV_ISR0_INDEX < RISCV_ISR0_INDEX + 4
      simp only [RISCV_ISR0_INDEX]
      omega
  refine ⟨hband, ?_⟩
  intro e1 he1 e2 he2 hk
  have h1 := hband e1 he1
  have h2 := hband e2 he2
  have hg := gprNumOf_le cfg normal
  cases hk1 : kindOf e1 <;> cases hk2 : kindOf e2 <;>
    rw [hk1, hk2] at hk <;>
    simp only [gdbBandOK, hk1, hk2, RISCV_FPR0_INDEX, RISCV_CSR0_INDEX,
      RISCV_ISR0_INDEX, RISCV_V0_INDEX, VREG_NUM] at h1 h2 <;>
    first
      | exact absurd rfl hk
      | omega

/-- The attributes of a sample CSR-enumerator entry (a machine-mode
CSR with protocol number 0x301). -/
def csrSampleAttrs : csrAttrs :=
  { name := "misa", desc := "ISA and extensions", csrNum := 0x301,
    noSaveRestore := false, noTraceChange := false }

/-- The sample CSR-enumerator record built on `csrSampleAttrs`. -/
def csrSample : riscvCSRDetails :=
  { attrs := csrSampleAttrs, mode := 3, access := vmiRegAccess.vmi_RA_RW,
    raw := rawLoc.csrR 0x301, rdRaw := true, wrRaw := true, extension := 0 }

/-- C5 witness: the band property evaluated on the concrete CSR entry
of a concrete table, and the disjointness of its index from a concrete
general-register index. -/
theorem claim5_witness :
    gdbBandOK (gprNumOf cfg32D64 true)
      (mkCSREntry (riscvGetXlenArch cfg32D64) csrSample) ∧
    (mkGPREntry (riscvGetXlenArch cfg32D64) 0).gdbIndex ≠
      (mkCSREntry (riscvGetXlenArch cfg32D64) csrSample).gdbIndex := by
  have h := claim5_index_bands cfg32D64 [csrSample] true (by decide)
  exact ⟨h.1 (mkCSREntry (riscvGetXlenArch cfg32D64) csrSample) (by decide),
    h.2 (mkGPREntry (riscvGetXlenArch cfg32D64) 0) (by decide)
      (mkCSREntry (riscvGetXlenArch cfg32D64) csrSample) (by decide)
      (by decide)⟩

/-- C2 (amended): for an instance without a child, the non-CSR-subset
view never yields a descriptor in one of the four control/status
groups, the CSR-only-subset view yields only such descriptors, and the
union (ignoring order) of the two subset views equals the set of
entries of the gdb-compatibility (restricted) table — the table both
subset views iterate — rather than the set yielded by the unrestricted
view, which iterates the full table. -/
theorem claim2_view_partition (st : riscvState)
    (hchild : st.hasChild = false) :
    (∀ e ∈ viewDescs st vmiRegInfoType.VMIRIT_GPACKET,
      isCSRGroup e.group = false) ∧
    (∀ e ∈ viewDescs st vmiRegInfoType.VMIRIT_PPACKET,
      isCSRGroup e.group = true) ∧
    (viewDescs st vmiRegInfoType.VMIRIT_GPACKET ++
      viewDescs st vmiRegInfoType.VMIRIT_PPACKET).Perm
      (tableFor st vmiRegInfoType.VMIRIT_GPACKET) := by
  rw [viewDescs_eq st vmiRegInfoType.VMIRIT_GPACKET hchild,
    viewDescs_eq st vmiRegInfoType.VMIRIT_PPACKET hchild]
  refine ⟨?_, ?_, ?_⟩
  · intro e he
    have h := (List.mem_filter.mp he).2
    simpa [isRegVisible] using h
  · intro e he
    exact (List.mem_filter.mp he).2
  · have htbl : tableFor st vmiRegInfoType.VMIRIT_PPACKET =
        tableFor st vmiRegInfoType.VMIRIT_GPACKET := rfl
    rw [htbl]
    have hperm := List.filter_append_perm
      (fun e => !(isCSRGroup e.group))
      (tableFor st vmiRegInfoType.VMIRIT_GPACKET)
    simp only [Bool.not_not] at hperm
    have hg : (fun e => isRegVisible e vmiRegInfoType.VMIRIT_GPACKET) =
        fun e : vmiRegInfo => !(isCSRGroup e.group) := rfl
    have hp : (fun e => isRegVisible e vmiRegInfoType.VMIRIT_PPACKET) =
        fun e : vmiRegInfo => isCSRGroup e.group := rfl
    rw [hg, hp]
    exact hperm

/-- A sample configuration with both the base-integer and the vector
extensions. -/
def cfgIV : riscvConfig :=
  { arch := ISA_I ||| ISA_V, debug_mode := 0, xlen := 32, flen := 0,
    xlenModeW := 32, VLEN := 128 }

/-- A sample hart configured with `cfgIV`. -/
def stIV : riscvState :=
  { cfg := cfgIV, hasChild := false, csrsNormal := [], csrsGdb := [],
    artifactAccess := false, inDM := false, inDMStall := false, pc := 0,
    regInfoGdb := none, regInfoNormal := none }

/-- C2 counterexample: for the vector-capable hart `stIV`, the union of
the two subset views (which iterate the restricted table, without
vector or integration registers) is not, even ignoring order, the set
yielded by the unrestricted view (which iterates the full table). -/
theorem claim2_counterexample :
    ¬ ((viewDescs stIV vmiRegInfoType.VMIRIT_GPACKET ++
        viewDescs stIV vmiRegInfoType.VMIRIT_PPACKET).Perm
        (viewDescs stIV vmiRegInfoType.VMIRIT_NORMAL)) := by
  intro h
  have hlen := h.length_eq
  have h1 : (viewDescs stIV vmiRegInfoType.VMIRIT_GPACKET ++
      viewDescs stIV vmiRegInfoType.VMIRIT_PPACKET).length = 65 := by rfl
  have h2 : (viewDescs stIV vmiRegInfoType.VMIRIT_NORMAL).length = 66 := by rfl
  omega

/-- C2 witness: on the concrete hart `stIV`, the first descriptor the
non-CSR-subset view yields is not in a CSR group, and the two subset
views together are a permutation of the restricted table. -/
theorem claim2_witness :
    isCSRGroup
      ((viewDescs stIV vmiRegInfoType.VMIRIT_GPACKET).getD 0 default).group
      = false ∧
    (viewDescs stIV vmiRegInfoType.VMIRIT_GPACKET ++
      viewDescs stIV vmiRegInfoType.VMIRIT_PPACKET).Perm
      (tableFor stIV vmiRegInfoType.VMIRIT_GPACKET) := by
  have h := claim2_view_partition stIV rfl
  exact ⟨h.1 ((viewDescs stIV vmiRegInfoType.VMIRIT_GPACKET).getD 0 default)
    (by decide), h.2.2⟩

/-- C9: an instance with a child (a container/cluster node) yields no
register from `getNextRegister` started at `none`, in every view,
without building or caching any table (the state is returned
unchanged), and consequently the group iteration yields no groups. -/
theorem claim9_container_no_registers (st : riscvState)
    (hchild : st.hasChild = true) :
    (∀ type, getNextRegisterSt st none type = (none, st)) ∧
    getNextGroup st none = none ∧
    groupTraverse st = [] := by
  have hdescs : viewDescs st vmiRegInfoType.VMIRIT_NORMAL = [] := by
    have hnone :
        (fun prev => getNextRegister st prev vmiRegInfoType.VMIRIT_NORMAL)
          none = none := by
      simp [getNextRegister, hchild]
    simp [viewDescs, viewSeq,
      @genChain_none
        (fun prev => getNextRegister st prev vmiRegInfoType.VMIRIT_NORMAL)
        none hnone]
  have hsupp : ∀ g, isGroupSupported st g = false := by
    intro g
    simp [isGroupSupported, hdescs]
  have hgroup : getNextGroup st none = none := by
    unfold getNextGroup
    exact searchFrom_all_false _ _ _ (fun g _ => hsupp g)
  refine ⟨?_, hgroup, ?_⟩
  · intro type
    simp [getNextRegisterSt, hchild]
  · exact @genChain_none (fun prev => getNextGroup st prev) none hgroup
      groupNames.length

/-- A sample container node (an instance with a child). -/
def stContainer : riscvState :=
  { cfg := cfg32I, hasChild := true, csrsNormal := [], csrsGdb := [],
    artifactAccess := false, inDM := false, inDMStall := false, pc := 0,
    regInfoGdb := none, regInfoNormal := none }

/-- C9 witness: the container behaviour evaluated on the concrete
container node `stContainer` for each of the three views. -/
theorem claim9_witness :
    getNextRegisterSt stContainer none vmiRegInfoType.VMIRIT_NORMAL
      = (none, stContainer) ∧
    getNextRegisterSt stContainer none vmiRegInfoType.VMIRIT_GPACKET
      = (none, stContainer) ∧
    getNextRegisterSt stContainer none vmiRegInfoType.VMIRIT_PPACKET
      = (none, stContainer) ∧
    getNextGroup stContainer none = none ∧
    groupTraverse stContainer = [] :=
  ⟨(claim9_container_no_registers stContainer rfl).1
      vmiRegInfoType.VMIRIT_NORMAL,
   (claim9_container_no_registers stContainer rfl).1
      vmiRegInfoType.VMIRIT_GPACKET,
   (claim9_container_no_registers stContainer rfl).1
      vmiRegInfoType.VMIRIT_PPACKET,
   (claim9_container_no_registers stContainer rfl).2.1,
   (claim9_container_no_registers stContainer rfl).2.2⟩

end RiscvDebug
